import Mathlib

/-!
Verification of the zai-cli core client (`src/lib/mcp-client.ts`, `src/lib/redact.ts`)
against its natural-language specification.

The TypeScript source is shallowly embedded: JSON-like runtime values become an
inductive `Json` type, strings are handled through their character lists so that
every operation is executable and kernel-reducible, asynchronous behaviour of the
shutdown race is modelled by an explicit behaviour parameter for the underlying
session close, and the retrying invoker's transport is a function from attempt
index to outcome.
-/

set_option maxRecDepth 8000

namespace Zai

/-! ### JavaScript string primitives

`String.prototype.includes`, `toLowerCase`, `replaceAll`, `endsWith` and
`parseInt(·, 10)` as used by the source, modelled on character lists.
(JS strings are UTF-16 code-unit sequences; the values involved in the claims
are ASCII, where Lean `Char` sequences coincide.) -/

/-- JS `s.includes(pat)`: `pat` occurs as a contiguous substring of `s`. -/
def jsIncludes (s pat : String) : Bool :=
  decide (pat.toList <:+: s.toList)

/-- JS `s.toLowerCase()` (ASCII-faithful: character-wise lowering). -/
def jsToLower (s : String) : String :=
  String.mk (s.toList.map Char.toLower)

/-- JS `s.endsWith(suffix)`. -/
def jsEndsWith (s sfx : String) : Bool :=
  decide (sfx.toList <:+ s.toList)

/-- Whitespace as matched by the JS `\s` class / `parseInt` trimming
(restricted to the ASCII range, which covers all values in the claims). -/
def jsIsSpace (c : Char) : Bool :=
  c = ' ' || c = '\t' || c = '\n' || c = '\r' || c = '\x0b' || c = '\x0c'

/-- Value of a digit list read in base 10. -/
def digitsToNat (ds : List Char) : Nat :=
  ds.foldl (fun acc c => acc * 10 + (c.toNat - '0'.toNat)) 0

/-- JS `parseInt(s, 10)`: skip leading whitespace, optional sign, then the
longest prefix of decimal digits; `none` models `NaN` (no digits found). -/
def parseIntJS (s : String) : Option Int :=
  let cs := s.toList.dropWhile jsIsSpace
  let signAndRest : Int × List Char :=
    match cs with
    | '-' :: rest => (-1, rest)
    | '+' :: rest => (1, rest)
    | _ => (1, cs)
  let digits := signAndRest.2.takeWhile Char.isDigit
  if digits.isEmpty then none
  else some (signAndRest.1 * (digitsToNat digits : Int))

/-- One fuel-indexed step of JS `s.replaceAll(pat, rep)` on character lists:
scan left to right, replacing each non-overlapping occurrence of `pat`.
The fuel only bounds recursion depth; `fuel ≥ cs.length` makes it exact
(each step consumes at least one character). -/
def jsReplaceAllGo (pat rep : List Char) : Nat → List Char → List Char
  | 0, cs => cs
  | _ + 1, [] => []
  | fuel + 1, c :: rest =>
    if pat.isPrefixOf (c :: rest) then
      rep ++ jsReplaceAllGo pat rep fuel ((c :: rest).drop pat.length)
    else
      c :: jsReplaceAllGo pat rep fuel rest

/-- JS `s.replaceAll(pat, rep)` for a nonempty string pattern (the source only
calls it with a truthy, hence nonempty, credential). -/
def jsReplaceAll (s pat rep : String) : String :=
  if pat.isEmpty then s
  else String.mk (jsReplaceAllGo pat.toList rep.toList s.toList.length s.toList)

/-! ### Data model: JSON-like runtime values (`redact.ts` operates on these) -/

/-- A JavaScript runtime value as traversed by `redactSecrets`: scalars,
arrays, and objects with insertion-ordered string keys. -/
inductive Json where
  | null
  | bool (b : Bool)
  | num (n : Int)
  | str (s : String)
  | arr (items : List Json)
  | obj (fields : List (String × Json))

/-! ### `redact.ts` -/

/-- `REDACT_KEYS` from `redact.ts`: the fixed set of sensitive key names
(exact case variants included). -/
def REDACT_KEYS : List String :=
  ["authorization", "Authorization", "api_key", "apiKey", "access_token",
   "token", "Z_AI_API_KEY", "ZAI_API_KEY"]

/-- Attempt to match the regex `Bearer\s+\S+` at the head of `cs`; on success
returns the remainder after the match (`\s+` and `\S+` are disjoint classes,
so greedy matching is exact). -/
def bearerMatchAt (cs : List Char) : Option (List Char) :=
  if "Bearer".toList.isPrefixOf cs then
    let afterWord := cs.drop 6
    let ws := afterWord.takeWhile jsIsSpace
    if ws.isEmpty then none
    else
      let afterWs := afterWord.drop ws.length
      let tok := afterWs.takeWhile (fun c => !jsIsSpace c)
      if tok.isEmpty then none
      else some (afterWs.drop tok.length)
  else none

/-- JS `result.replace(/Bearer\s+\S+/, 'Bearer [REDACTED]')`: replace the
first occurrence only. -/
def bearerReplaceFirst : List Char → List Char
  | [] => []
  | c :: rest =>
    match bearerMatchAt (c :: rest) with
    | some remainder => "Bearer [REDACTED]".toList ++ remainder
    | none => c :: bearerReplaceFirst rest

/-- `redactString` from `redact.ts`: replace every occurrence of the active
credential, then apply the `Bearer` rule — the test `/^Bearer\s+\S+/` is
anchored at the start of the string. `apiKey = none` models an undefined or
empty (falsy) credential. -/
def redactString (value : String) (apiKey : Option String) : String :=
  let result :=
    match apiKey with
    | some k => if k ≠ "" && jsIncludes value k then jsReplaceAll value k "[REDACTED]" else value
    | none => value
  if (bearerMatchAt result.toList).isSome then
    String.mk (bearerReplaceFirst result.toList)
  else result

mutual

/-- `redactSecrets` from `redact.ts`: recursively rebuild the value, redacting
string scalars, and replacing the value under any sensitive key wholesale
(without recursing into it). The output is constructed fresh at every node
(`value.map`, a fresh `output` object in the source), never aliasing the input. -/
def redactSecrets (value : Json) (apiKey : Option String) : Json :=
  match value with
  | Json.str s => Json.str (redactString s apiKey)
  | Json.arr items => Json.arr (redactItems items apiKey)
  | Json.obj fields => Json.obj (redactFields fields apiKey)
  | other => other

/-- `value.map((item) => redactSecrets(item, apiKey))` from `redact.ts`. -/
def redactItems (items : List Json) (apiKey : Option String) : List Json :=
  match items with
  | [] => []
  | item :: rest => redactSecrets item apiKey :: redactItems rest apiKey

/-- The `Object.entries` loop of `redactSecrets`: keep each key, replacing the
value with the marker when the key is sensitive. -/
def redactFields (fields : List (String × Json)) (apiKey : Option String) :
    List (String × Json) :=
  match fields with
  | [] => []
  | (key, child) :: rest =>
    (key, if REDACT_KEYS.contains key then Json.str "[REDACTED]"
          else redactSecrets child apiKey) :: redactFields rest apiKey

end

/-! ### Paths into JSON values (used to state the redaction claims) -/

/-- One step of a path into a `Json` value. -/
inductive Step where
  | field (name : String)
  | index (i : Nat)
deriving DecidableEq

/-- One navigation step into a value: object fields are looked up by first
matching key (JS objects have unique keys; first match models the lookup),
array elements by index. -/
def stepChild : Json → Step → Option Json
  | Json.obj fields, Step.field name =>
    (fields.find? (fun entry => entry.1 == name)).map Prod.snd
  | Json.arr items, Step.index i => items[i]?
  | _, _ => none

/-- Follow a path into a value. -/
def getPath : Json → List Step → Option Json
  | v, [] => some v
  | v, step :: rest => (stepChild v step).bind (fun child => getPath child rest)

/-- A step that does not traverse a sensitive key. -/
def stepSensitiveFree : Step → Bool
  | Step.field name => !REDACT_KEYS.contains name
  | Step.index _ => true

/-- A path that passes through no sensitive key. -/
def sensitiveFreePath (p : List Step) : Bool :=
  p.all stepSensitiveFree

/-! ### `errors.ts` (typed error taxonomy)

The class definitions live in `src/lib/errors.ts`; the client constructs them
with a message (and a status for `ApiError`), which is all the claims need. -/

/-- A typed error as raised by the client (`errors.ts` classes). -/
inductive ZaiError where
  | apiError (message : String) (status : Int)
  | authError (message : String)
  | timeoutError (timeoutMs : Nat)
  | networkError (message : String)
  | validationError (message : String)
deriving DecidableEq

/-- The spec's `UnknownToolError`: the code realizes it as
`new ApiError('Unknown tool: ' + toolName, 400)` in `resolveToolName`,
carrying the requested identifier in the message. -/
def unknownToolError (toolName : String) : ZaiError :=
  ZaiError.apiError ("Unknown tool: " ++ toolName) 400

/-- `DEFAULT_TIMEOUT_MS` (`Z_AI_TIMEOUT` default `300000`). -/
def DEFAULT_TIMEOUT_MS : Nat := 300000

/-! ### Tool catalog and name resolution (`mcp-client.ts`) -/

/-- A capability descriptor from the catalog (`Tool` from `@utcp/sdk`):
a globally unique namespaced name plus input/output schemas. -/
structure Tool where
  name : String
  inputSchema : Json := Json.null
  outputSchema : Json := Json.null

/-- `tools.find((tool) => tool.name === toolName)` — exact name match. -/
def findExactTool (tools : List Tool) (toolName : String) : Option Tool :=
  tools.find? (fun tool => tool.name == toolName)

/-- `tools.find((tool) => tool.name.endsWith('.' + toolName))` — dot-separated
suffix match, first match in catalog order. -/
def findSuffixTool (tools : List Tool) (toolName : String) : Option Tool :=
  tools.find? (fun tool => jsEndsWith tool.name ("." ++ toolName))

/-- `ZaiMcpClient.getTool`: exact-then-suffix matching against the catalog
returned by `listTools()`, and — only if both miss — one forced
cache-bypassing discovery (`listTools(true)`) followed by the same
exact-then-suffix matching against the refreshed catalog.

`catalog` is the list returned by the first `listTools()` call and
`refreshed` the one returned by `listTools(true)`; the second component
counts the forced cache-bypassing discoveries performed. -/
def getTool (catalog refreshed : List Tool) (toolName : String) :
    Option Tool × Nat :=
  match findExactTool catalog toolName with
  | some t => (some t, 0)
  | none =>
    match findSuffixTool catalog toolName with
    | some t => (some t, 0)
    | none =>
      match findExactTool refreshed toolName with
      | some t => (some t, 1)
      | none => (findSuffixTool refreshed toolName, 1)

/-- `ZaiMcpClient.resolveToolName`: the resolved fully-qualified name, or
`ApiError('Unknown tool: ' + toolName, 400)` when `getTool` finds nothing;
the second component counts forced discoveries as in `getTool`. -/
def resolveToolName (catalog refreshed : List Tool) (toolName : String) :
    Except ZaiError String × Nat :=
  match getTool catalog refreshed toolName with
  | (some tool, n) => (Except.ok tool.name, n)
  | (none, n) => (Except.error (unknownToolError toolName), n)

/-! ### Retry policy (`mcp-client.ts` lines 133–235) -/

/-- The retry backoff knobs (`ZAI_MCP_RETRY_BASE_MS` / `_MAX_MS` /
`_JITTER_MS`, defaults 500 / 8000 / 250). -/
structure RetryConfig where
  baseDelayMs : Nat
  maxDelayMs : Nat
  jitterMaxMs : Nat

/-- The defaults used when no environment override is present. -/
def defaultRetryConfig : RetryConfig := ⟨500, 8000, 250⟩

/-- An error value caught by `callTool`'s `catch`: the `instanceof` class
(for `AuthError` / `ValidationError` short-circuits), whether it is an
`Error` at all, and its message (`String(error)` for non-`Error` values). -/
inductive Thrown where
  | authError (message : String)
  | validationError (message : String)
  | otherError (message : String)
  | nonError (text : String)
deriving DecidableEq

/-- The text the source inspects: `error.message` for `Error` instances,
`String(error)` otherwise. -/
def Thrown.messageText : Thrown → String
  | .authError m => m
  | .validationError m => m
  | .otherError m => m
  | .nonError t => t

/-- The retriable-marker list from `ZaiMcpClient.isRetriableError`. -/
def retriableMarkers : List String :=
  ["timeout", "timed out", "etimedout", "econnrefused", "econnreset",
   "network", "fetch", "internal network failure", "unexpected system error",
   "http 500", "http 502", "http 503", "http 504", "rate limit", "429", "-500"]

/-- `ZaiMcpClient.isRetriableError`: `AuthError` / `ValidationError` are never
retriable; otherwise the lowercased message must avoid the auth markers
(401/403/auth) and contain one of the retriable markers. -/
def isRetriableError (e : Thrown) : Bool :=
  match e with
  | .authError _ => false
  | .validationError _ => false
  | _ =>
    let normalized := jsToLower e.messageText
    if jsIncludes normalized "401" || jsIncludes normalized "403" ||
        jsIncludes normalized "auth" then
      false
    else
      retriableMarkers.any (fun marker => jsIncludes normalized marker)

/-- The error classification performed when `callTool` stops retrying
(`mcp-client.ts` lines 171–186); these checks are case-sensitive. -/
def classifyCallError (e : Thrown) : ZaiError :=
  match e with
  | .nonError text => ZaiError.apiError ("MCP tool call failed: " ++ text) 500
  | _ =>
    let m := e.messageText
    if jsIncludes m "401" || jsIncludes m "403" then
      ZaiError.authError ("Authentication failed: " ++ m)
    else if jsIncludes m "timeout" || jsIncludes m "ETIMEDOUT" then
      ZaiError.timeoutError DEFAULT_TIMEOUT_MS
    else if jsIncludes m "ECONNREFUSED" || jsIncludes m "network" then
      ZaiError.networkError m
    else if jsIncludes m "-500" || jsIncludes m "Unexpected system error" then
      ZaiError.apiError m (-500)
    else
      ZaiError.apiError ("MCP tool call failed: " ++ m) 500

/-- JS `a || b` on optional environment strings: `b` when `a` is undefined or
empty (falsy), else `a`. -/
def jsOrElse (a b : Option String) : Option String :=
  match a with
  | some s => if s = "" then b else some s
  | none => b

/-- `ZaiMcpClient.getRetryCount`. The three environment reads are passed in
(`none` = unset); JS `a || b` falls through on the empty string, and a raw
value that does not parse to a finite number yields 0. -/
def getRetryCount (envRetryCount envVisionRetryCount envZaiRetryCount : Option String)
    (toolName : String) : Int :=
  let globalRetries := parseIntJS ((jsOrElse envRetryCount (some "0")).getD "0")
  if jsIncludes toolName ".vision." then
    match jsOrElse envVisionRetryCount envZaiRetryCount with
    | some raw => (parseIntJS raw).getD 0
    | none => 2
  else
    globalRetries.getD 0

/-- Outcome of one transport invocation (`this.client.callTool`). -/
inductive AttemptOutcome where
  | ok (result : Json)
  | err (e : Thrown)

/-- Success handling (`mcp-client.ts` lines 147–156): a string result that
parses as JSON is returned parsed, otherwise unchanged; `parseJson` stands
for `JSON.parse` (`none` = parse failure). -/
def handleRawResult (parseJson : String → Option Json) (r : Json) : Json :=
  match r with
  | Json.str s =>
    match parseJson s with
    | some v => v
    | none => Json.str s
  | other => other

/-- Observable result of a `callTool` run: the surfaced outcome, the total
number of transport invocation attempts, and the backoff sleeps performed
between attempts, in order. -/
structure RunResult where
  outcome : Except ZaiError Json
  attempts : Nat
  delays : List Nat

/-- The retry loop of `ZaiMcpClient.callTool` from a given `attempt` counter
value. `transport n` is the outcome of the `n`-th transport invocation
(0-indexed); `jitterF n` is the value of `Math.floor(Math.random() *
jitterMaxMs)` drawn before the sleep that precedes retry `n`.

On failure the counter is incremented; while the incremented counter stays
within the retry budget and the error is classified retriable, the shared
session is torn down, the loop sleeps
`min(maxDelayMs, baseDelayMs * 2^(attempt-1)) + jitter` and retries;
otherwise the error is classified (`classifyCallError`) and surfaced.

`fuel` is a structural-recursion bound only: each retry consumes one unit,
and the guard `attempt + 1 ≤ maxRetries` means `fuel = maxRetries.toNat -
attempt` units are never exhausted (the zero-fuel branch is unreachable from
`callTool` below). `init()` is assumed to succeed; its failure would
propagate before any transport attempt and is outside these claims. -/
def callToolAux (parseJson : String → Option Json) (transport : Nat → AttemptOutcome)
    (cfg : RetryConfig) (jitterF : Nat → Nat) (maxRetries : Int) :
    Nat → Nat → RunResult
  | attempt, fuel =>
    match transport attempt with
    | AttemptOutcome.ok r => ⟨Except.ok (handleRawResult parseJson r), 1, []⟩
    | AttemptOutcome.err e =>
      if ((attempt + 1 : Nat) : Int) ≤ maxRetries ∧ isRetriableError e = true then
        match fuel with
        | 0 => ⟨Except.error (classifyCallError e), 1, []⟩
        | fuel' + 1 =>
          let rest := callToolAux parseJson transport cfg jitterF maxRetries (attempt + 1) fuel'
          ⟨rest.outcome, rest.attempts + 1,
            (min cfg.maxDelayMs (cfg.baseDelayMs * 2 ^ (attempt + 1 - 1)) + jitterF (attempt + 1))
              :: rest.delays⟩
      else
        ⟨Except.error (classifyCallError e), 1, []⟩

/-- `ZaiMcpClient.callTool`: run the retry loop from `attempt = 0` with enough
fuel for the whole budget. -/
def callTool (parseJson : String → Option Json) (transport : Nat → AttemptOutcome)
    (cfg : RetryConfig) (jitterF : Nat → Nat) (maxRetries : Int) : RunResult :=
  callToolAux parseJson transport cfg jitterF maxRetries 0 maxRetries.toNat

/-- The delay schedule of an all-failing run: the sleeps before retries
`n, n+1, …, n+k-1`. Used only to state and prove properties of `callTool`. -/
def expectedDelays (cfg : RetryConfig) (jitterF : Nat → Nat) : Nat → Nat → List Nat
  | _, 0 => []
  | n, k + 1 =>
    (min cfg.maxDelayMs (cfg.baseDelayMs * 2 ^ (n - 1)) + jitterF n)
      :: expectedDelays cfg jitterF (n + 1) k

/-! ### Tool catalog cache read (`mcp-client.ts` lines 262–287) -/

/-- `TOOL_CACHE_VERSION`. -/
def TOOL_CACHE_VERSION : Int := 1

/-- What the cache file at the fingerprint-keyed path looks like to
`readToolsCache`: unreadable (missing file or a `JSON.parse` throw), parsed
but null/falsy, or a parsed object with optional `version`, `timestamp` and
`tools` fields (`tools = none` also covers a non-array value). -/
inductive CacheFileView where
  | unreadable
  | nullish
  | entry (version : Option Int) (timestamp : Option Int) (tools : Option (List Tool))

/-- `ZaiMcpClient.readToolsCache`: `none` when caching is disabled, on a
forced refresh, on a zero/negative TTL, on any read or parse failure, on a
format-version mismatch, or when `now - (timestamp || 0)` exceeds the TTL;
otherwise the stored catalog. -/
def readToolsCache (cacheEnabled : Bool) (ttlMs : Int) (refresh : Bool)
    (file : CacheFileView) (nowMs : Int) : Option (List Tool) :=
  if !cacheEnabled || refresh then none
  else if ttlMs ≤ 0 then none
  else
    match file with
    | CacheFileView.unreadable => none
    | CacheFileView.nullish => none
    | CacheFileView.entry version timestamp tools =>
      if version ≠ some TOOL_CACHE_VERSION then none
      else
        match tools with
        | none => none
        | some ts =>
          if nowMs - timestamp.getD 0 > ttlMs then none else some ts

/-! ### Session shutdown (`ZaiMcpClient.close`, lines 561–571) -/

/-- Behaviour of the underlying `this.client.close()` call: it settles
successfully at `atMs` milliseconds, rejects at `atMs`, or never settles. -/
inductive CloseBehavior where
  | succeeds (atMs : Nat)
  | fails (atMs : Nat)
  | hangs
deriving DecidableEq

/-- Whether `close()` resolved or raised (its promise rejected). -/
inductive CloseOutcome where
  | resolved
  | raised
deriving DecidableEq

/-- The client-side state touched by `close()`: `this.client !== null`,
`this.isInitialized`, `this.initPromise !== null`. -/
structure ClientState where
  hasClient : Bool
  isInitialized : Bool
  hasInitPromise : Bool
deriving DecidableEq

/-- The state after a completed teardown. -/
def closedState : ClientState := ⟨false, false, false⟩

/-- What a `close()` call did: outcome, time until it settled, resulting
client state, and whether the underlying transport close was invoked. -/
structure CloseResult where
  outcome : CloseOutcome
  elapsedMs : Nat
  state : ClientState
  invokedUnderlying : Bool
deriving DecidableEq

/-- `ZaiMcpClient.close(timeoutMs = 2000)`: with a live client, race the
underlying close against a `setTimeout(timeoutMs)` (the timer promise never
rejects), then clear `client` / `isInitialized` / `initPromise`. If the
underlying close rejects before the timer fires, the race rejects, the
`await` rethrows, and the state-clearing assignments are skipped. A timer
tie (`atMs = timeoutMs`) is resolved in favour of the timer. Without a live
client the method returns immediately, never touching the transport. -/
def close (s : ClientState) (behavior : CloseBehavior) (timeoutMs : Nat) : CloseResult :=
  if s.hasClient then
    match behavior with
    | CloseBehavior.succeeds atMs =>
      if atMs < timeoutMs then ⟨CloseOutcome.resolved, atMs, closedState, true⟩
      else ⟨CloseOutcome.resolved, timeoutMs, closedState, true⟩
    | CloseBehavior.fails atMs =>
      if atMs < timeoutMs then ⟨CloseOutcome.raised, atMs, s, true⟩
      else ⟨CloseOutcome.resolved, timeoutMs, closedState, true⟩
    | CloseBehavior.hangs => ⟨CloseOutcome.resolved, timeoutMs, closedState, true⟩
  else ⟨CloseOutcome.resolved, 0, s, false⟩

/-! ## Theorems -/

/-- C1: for every identifier that matches no catalog entry by exact name and
none by dot-separated suffix, resolution performs exactly one forced
cache-bypassing discovery, repeats exact-then-suffix matching against the
refreshed catalog, and, if still unmatched, raises the spec's
`UnknownToolError` — realized as `ApiError('Unknown tool: ' + id, 400)` —
carrying the requested identifier. -/
theorem resolveToolName_unknown (catalog refreshed : List Tool) (id : String)
    (h1 : findExactTool catalog id = none) (h2 : findSuffixTool catalog id = none) :
    (resolveToolName catalog refreshed id).2 = 1
  ∧ (findExactTool refreshed id = none → findSuffixTool refreshed id = none →
      (resolveToolName catalog refreshed id).1 = Except.error (unknownToolError id)) := by
  constructor
  · simp only [resolveToolName, getTool, h1, h2]
    cases h3 : findExactTool refreshed id
    · cases h4 : findSuffixTool refreshed id <;> rfl
    · rfl
  · intro h3 h4
    simp only [resolveToolName, getTool, h1, h2, h3, h4]

/-- Witness for C1: in a catalog containing only `zai.vision.analyze_image`,
resolving `missing` performs exactly one forced refresh and surfaces
`Unknown tool: missing`. -/
theorem resolveToolName_unknown_witness :
    (resolveToolName [⟨"zai.vision.analyze_image", Json.null, Json.null⟩] [] "missing").2 = 1
  ∧ ((resolveToolName [⟨"zai.vision.analyze_image", Json.null, Json.null⟩] [] "missing").1
      = Except.error (unknownToolError "missing")) := by
  have h := resolveToolName_unknown [⟨"zai.vision.analyze_image", Json.null, Json.null⟩] []
    "missing" rfl rfl
  exact ⟨h.1, h.2 rfl rfl⟩

/-- C2 counterexample: the claim that `close()` never raises and always clears
state fails when the underlying session close rejects before the timeout —
`Promise.race` then rejects, the `await` rethrows, and the state-clearing
assignments are skipped, so the client handle is still set. -/
theorem close_raises_counterexample :
    (close ⟨true, true, true⟩ (CloseBehavior.fails 0) 2000).outcome = CloseOutcome.raised
  ∧ (close ⟨true, true, true⟩ (CloseBehavior.fails 0) 2000).state ≠ closedState
  ∧ (close ⟨true, true, true⟩ (CloseBehavior.fails 0) 2000).state.hasClient = true := by
  decide

/-- Helper: with no live client, `close()` resolves at once, untouched state,
transport close not invoked. -/
theorem close_no_client (s : ClientState) (b : CloseBehavior) (t : Nat)
    (hs : s.hasClient = false) :
    close s b t = ⟨CloseOutcome.resolved, 0, s, false⟩ := by
  unfold close
  simp [hs]

/-- Helper: whenever a `close()` call resolves, the resulting state has no
live client (either it was cleared, or there was none to begin with). -/
theorem close_resolved_state (s : ClientState) (b : CloseBehavior) (t : Nat)
    (h : (close s b t).outcome = CloseOutcome.resolved) :
    (close s b t).state = closedState
      ∨ (s.hasClient = false ∧ (close s b t).state = s) := by
  unfold close at h ⊢
  rcases hs : s.hasClient
  · simp [hs]
  · rw [hs] at h
    cases b with
    | succeeds atMs => by_cases ht : atMs < t <;> simp [ht]
    | fails atMs =>
      by_cases ht : atMs < t
      · simp [ht] at h
      · simp [ht]
    | hangs => simp

/-- C2 amended: `close()` always settles within the configured timeout
(default 2000ms); it resolves and leaves the client closed/uninitialized
whenever the underlying close succeeds, hangs, or fails no earlier than the
timeout — but it raises, leaving the state untouched, exactly when a live
client's underlying close rejects strictly before the timeout. -/
theorem close_spec (s : ClientState) (b : CloseBehavior) (timeoutMs : Nat) :
    (close s b timeoutMs).elapsedMs ≤ timeoutMs
  ∧ ((close s b timeoutMs).outcome = CloseOutcome.resolved →
      (close s b timeoutMs).state = closedState
        ∨ (s.hasClient = false ∧ (close s b timeoutMs).state = s))
  ∧ ((close s b timeoutMs).outcome = CloseOutcome.raised ↔
      s.hasClient = true ∧ ∃ t, b = CloseBehavior.fails t ∧ t < timeoutMs) := by
  refine ⟨?_, close_resolved_state s b timeoutMs, ?_⟩
  · unfold close
    rcases hs : s.hasClient
    · simp
    · cases b with
      | succeeds atMs => by_cases ht : atMs < timeoutMs <;> simp [ht] <;> omega
      | fails atMs => by_cases ht : atMs < timeoutMs <;> simp [ht] <;> omega
      | hangs => simp
  · unfold close
    rcases hs : s.hasClient
    · simp [hs]
    · cases b with
      | succeeds atMs =>
        by_cases ht : atMs < timeoutMs <;> simp [ht, hs]
      | fails atMs =>
        by_cases ht : atMs < timeoutMs <;> simp [ht, hs]
      | hangs => simp [hs]

/-- Witness for C2 amended: a hung underlying close still resolves at the
2000ms bound with the client fully cleared. -/
theorem close_spec_witness :
    (close ⟨true, true, true⟩ CloseBehavior.hangs 2000).elapsedMs ≤ 2000
  ∧ (close ⟨true, true, true⟩ CloseBehavior.hangs 2000).state = closedState := by
  refine ⟨(close_spec ⟨true, true, true⟩ CloseBehavior.hangs 2000).1, ?_⟩
  rcases (close_spec ⟨true, true, true⟩ CloseBehavior.hangs 2000).2.1 (by decide) with h | h
  · exact h
  · exact absurd h.1 (by decide)

/-- C10 counterexample: calling `close()` twice is not always equivalent to
calling it once — if the first call's underlying close rejects immediately,
the first call raises and leaves the client live, and a second call (here
with a hung underlying close) then clears the state. -/
theorem close_idempotent_counterexample :
    (close (close ⟨true, true, true⟩ (CloseBehavior.fails 0) 2000).state
        CloseBehavior.hangs 2000).state
      ≠ (close ⟨true, true, true⟩ (CloseBehavior.fails 0) 2000).state := by
  decide

/-- C10 amended: with no live session, `close()` resolves immediately without
invoking the underlying transport close and leaves the state untouched;
consequently, whenever a `close()` call resolves, a subsequent `close()` is
a complete no-op — the double-call equivalence fails only when the first
call raises (underlying close rejected before the timeout). -/
theorem close_noop_spec (s : ClientState) (b b2 : CloseBehavior) (t t2 : Nat) :
    (s.hasClient = false → close s b t = ⟨CloseOutcome.resolved, 0, s, false⟩)
  ∧ ((close s b t).outcome = CloseOutcome.resolved →
      close (close s b t).state b2 t2
        = ⟨CloseOutcome.resolved, 0, (close s b t).state, false⟩) := by
  constructor
  · intro hs
    exact close_no_client s b t hs
  · intro hres
    have hstate : (close s b t).state.hasClient = false := by
      rcases close_resolved_state s b t hres with h | h
      · rw [h]; rfl
      · rw [h.2]; exact h.1
    exact close_no_client _ b2 t2 hstate

/-- Witness for C10 amended: a never-initialized client's `close()` is an
immediate no-op, and after a resolving `close()` a second call is a no-op. -/
theorem close_noop_witness :
    close ⟨false, false, false⟩ CloseBehavior.hangs 2000
      = ⟨CloseOutcome.resolved, 0, ⟨false, false, false⟩, false⟩
  ∧ close (close ⟨true, true, true⟩ (CloseBehavior.succeeds 5) 2000).state
      CloseBehavior.hangs 2000
      = ⟨CloseOutcome.resolved, 0,
          (close ⟨true, true, true⟩ (CloseBehavior.succeeds 5) 2000).state, false⟩ := by
  exact ⟨(close_noop_spec ⟨false, false, false⟩ CloseBehavior.hangs CloseBehavior.hangs 2000 2000).1 rfl,
         (close_noop_spec ⟨true, true, true⟩ (CloseBehavior.succeeds 5) CloseBehavior.hangs 2000 2000).2
           (by decide)⟩

/-- C6: a valid cache entry captured at `T` with TTL `Δ > 0` is returned when
read at `T+Δ−1` and rejected at `T+Δ+1`; a read also yields `none` (absent)
on any parse failure, on a format-version mismatch, with caching disabled,
on a forced refresh, or with a zero/negative TTL. -/
theorem readToolsCache_spec (T Δ : Int) (ts : List Tool) (hΔ : 0 < Δ) :
    readToolsCache true Δ false
        (CacheFileView.entry (some TOOL_CACHE_VERSION) (some T) (some ts)) (T + Δ - 1)
      = some ts
  ∧ readToolsCache true Δ false
        (CacheFileView.entry (some TOOL_CACHE_VERSION) (some T) (some ts)) (T + Δ + 1)
      = none
  ∧ (∀ now, readToolsCache true Δ false CacheFileView.unreadable now = none)
  ∧ (∀ v now, v ≠ some TOOL_CACHE_VERSION →
      readToolsCache true Δ false (CacheFileView.entry v (some T) (some ts)) now = none)
  ∧ (∀ file now, readToolsCache false Δ false file now = none)
  ∧ (∀ file now, readToolsCache true Δ true file now = none)
  ∧ (∀ ttl file now, ttl ≤ 0 → readToolsCache true ttl false file now = none) := by
  have hΔ' : ¬ Δ ≤ 0 := by omega
  refine ⟨?_, ?_, ?_, ?_, ?_, ?_, ?_⟩
  · simp only [readToolsCache, Bool.not_true, Bool.false_or, if_false, if_neg hΔ']
    have hage : ¬ (T + Δ - 1 - (some T).getD 0 > Δ) := by
      simp only [Option.getD_some]; omega
    simp [hage]
    omega
  · simp only [readToolsCache, Bool.not_true, Bool.false_or, if_false, if_neg hΔ']
    have hage : T + Δ + 1 - (some T).getD 0 > Δ := by
      simp only [Option.getD_some]; omega
    simp [hage]
    omega
  · intro now
    simp [readToolsCache, hΔ']
  · intro v now hv
    simp [readToolsCache, hΔ', hv]
  · intro file now
    simp [readToolsCache]
  · intro file now
    simp [readToolsCache]
  · intro ttl file now httl
    simp [readToolsCache, httl]

/-- Witness for C6: an entry captured at 1000 with TTL 10 is served at 1009,
rejected at 1011, and a version-0 entry is always rejected. -/
theorem readToolsCache_spec_witness :
    readToolsCache true 10 false
        (CacheFileView.entry (some TOOL_CACHE_VERSION) (some 1000)
          (some [⟨"zai.vision.analyze_image", Json.null, Json.null⟩])) 1009
      = some [⟨"zai.vision.analyze_image", Json.null, Json.null⟩]
  ∧ readToolsCache true 10 false
        (CacheFileView.entry (some TOOL_CACHE_VERSION) (some 1000)
          (some [⟨"zai.vision.analyze_image", Json.null, Json.null⟩])) 1011
      = none
  ∧ readToolsCache true 10 false
        (CacheFileView.entry (some 0) (some 1000)
          (some [⟨"zai.vision.analyze_image", Json.null, Json.null⟩])) 1005
      = none := by
  have h := readToolsCache_spec 1000 10 [⟨"zai.vision.analyze_image", Json.null, Json.null⟩]
    (by norm_num)
  exact ⟨h.1, h.2.1, h.2.2.2.1 (some 0) 1005 (by decide)⟩

/-- C9: with no retry-count configuration the budget is 2 for tools whose
fully-qualified name contains `.vision.` and 0 otherwise; a vision override
that parses to a finite integer replaces the default, and a non-numeric
override yields 0 (independently of the global setting). -/
theorem getRetryCount_spec (toolName : String) :
    getRetryCount none none none toolName
      = (if jsIncludes toolName ".vision." = true then 2 else 0)
  ∧ (∀ g z raw n, jsIncludes toolName ".vision." = true → raw ≠ "" →
      parseIntJS raw = some n → getRetryCount g (some raw) z toolName = n)
  ∧ (∀ g z raw, jsIncludes toolName ".vision." = true → raw ≠ "" →
      parseIntJS raw = none → getRetryCount g (some raw) z toolName = 0) := by
  refine ⟨?_, ?_, ?_⟩
  · by_cases hv : jsIncludes toolName ".vision." = true <;>
      simp [getRetryCount, jsOrElse, hv, parseIntJS, jsIsSpace, digitsToNat]
  · intro g z raw n hv hraw hparse
    simp [getRetryCount, jsOrElse, hv, hraw, hparse]
  · intro g z raw hv hraw hparse
    simp [getRetryCount, jsOrElse, hv, hraw, hparse]

/-- Witness for C9: vision default 2, non-vision default 0, numeric override
5, non-numeric override 0. -/
theorem getRetryCount_spec_witness :
    getRetryCount none none none "zai.vision.analyze_image" = 2
  ∧ getRetryCount none none none "zai.zread.search_doc" = 0
  ∧ getRetryCount none (some "5") none "zai.vision.analyze_image" = 5
  ∧ getRetryCount none (some "nope") none "zai.vision.analyze_image" = 0 := by
  refine ⟨?_, ?_, ?_, ?_⟩
  · have h := (getRetryCount_spec "zai.vision.analyze_image").1
    rw [h]; decide
  · have h := (getRetryCount_spec "zai.zread.search_doc").1
    rw [h]; decide
  · exact (getRetryCount_spec "zai.vision.analyze_image").2.1 none none "5" 5
      (by decide) (by decide) (by decide)
  · exact (getRetryCount_spec "zai.vision.analyze_image").2.2 none none "nope"
      (by decide) (by decide) (by decide)

/-- C8 counterexample: the `Bearer <token>` shape is NOT redacted wherever it
occurs — the test `/^Bearer\s+\S+/` is anchored at the start of the string,
so a string merely containing the shape passes through unchanged, token
intact. -/
theorem redactString_bearer_counterexample :
    redactString "see Bearer abc123" none = "see Bearer abc123"
  ∧ jsIncludes (redactString "see Bearer abc123" none) "abc123" = true := by
  decide

/-- C8 amended: only a string that BEGINS with the `Bearer <token>` shape is
redacted, and only its leading `Bearer\s+\S+` occurrence is replaced with
`Bearer [REDACTED]`; a string not beginning with the shape is left unchanged
by the Bearer rule. -/
theorem redactString_bearer (s : String) :
    (∀ rest, bearerMatchAt s.toList = some rest →
      redactString s none = String.mk ("Bearer [REDACTED]".toList ++ rest))
  ∧ (bearerMatchAt s.toList = none → redactString s none = s) := by
  constructor
  · intro rest hmatch
    show (if (bearerMatchAt s.toList).isSome then String.mk (bearerReplaceFirst s.toList) else s)
        = String.mk ("Bearer [REDACTED]".toList ++ rest)
    rw [hmatch]
    simp only [Option.isSome_some, if_true]
    cases hcs : s.toList with
    | nil =>
      rw [hcs] at hmatch
      have hnil : bearerMatchAt ([] : List Char) = none := by decide
      rw [hnil] at hmatch
      cases hmatch
    | cons c cs =>
      rw [hcs] at hmatch
      unfold bearerReplaceFirst
      rw [hmatch]
  · intro hmatch
    show (if (bearerMatchAt s.toList).isSome then String.mk (bearerReplaceFirst s.toList) else s) = s
    rw [hmatch]
    rfl

/-- Witness for C8 amended: a leading Bearer credential is replaced, keeping
the tail; the second Bearer occurrence in the same string is untouched. -/
theorem redactString_bearer_witness :
    redactString "Bearer abc123 and Bearer xyz" none
      = "Bearer [REDACTED] and Bearer xyz" := by
  have h := (redactString_bearer "Bearer abc123 and Bearer xyz").1
    (" and Bearer xyz".toList) (by decide)
  rw [h]
  decide

/-- Helper: the expected delay schedule has one sleep per retry. -/
theorem expectedDelays_length (cfg : RetryConfig) (jitterF : Nat → Nat) :
    ∀ k n, (expectedDelays cfg jitterF n k).length = k := by
  intro k
  induction k with
  | zero => intro n; rfl
  | succ k ih => intro n; simp [expectedDelays, ih]

/-- Helper: the i-th entry of the expected delay schedule. -/
theorem expectedDelays_getD (cfg : RetryConfig) (jitterF : Nat → Nat) :
    ∀ k n i, i < k →
      (expectedDelays cfg jitterF n k).getD i 0
        = min cfg.maxDelayMs (cfg.baseDelayMs * 2 ^ (n + i - 1)) + jitterF (n + i) := by
  intro k
  induction k with
  | zero => intro n i h; omega
  | succ k ih =>
    intro n i h
    cases i with
    | zero => simp [expectedDelays]
    | succ i =>
      have hrec := ih (n + 1) i (by omega)
      simp only [expectedDelays, List.getD_cons_succ]
      rw [hrec]
      have h1 : n + 1 + i = n + (i + 1) := by omega
      rw [h1]

/-- Helper: a failing attempt that cannot retry (budget exceeded or error
non-retriable) stops at once with the classified error. -/
theorem callToolAux_err_stop (parseJson : String → Option Json)
    (transport : Nat → AttemptOutcome) (cfg : RetryConfig) (jitterF : Nat → Nat)
    (maxRetries : Int) (attempt fuel : Nat) (e : Thrown)
    (hT : transport attempt = AttemptOutcome.err e)
    (hcond : ¬ (((attempt + 1 : Nat) : Int) ≤ maxRetries ∧ isRetriableError e = true)) :
    callToolAux parseJson transport cfg jitterF maxRetries attempt fuel
      = ⟨Except.error (classifyCallError e), 1, []⟩ := by
  unfold callToolAux
  split
  next r heq => rw [hT] at heq; cases heq
  next e' heq =>
    rw [hT] at heq
    injection heq with he
    subst he
    exact if_neg hcond

/-- Helper: a failing attempt within budget with a retriable error sleeps the
backoff plus jitter and continues with the incremented counter. -/
theorem callToolAux_err_retry (parseJson : String → Option Json)
    (transport : Nat → AttemptOutcome) (cfg : RetryConfig) (jitterF : Nat → Nat)
    (maxRetries : Int) (attempt fuel : Nat) (e : Thrown)
    (hT : transport attempt = AttemptOutcome.err e)
    (hcond : ((attempt + 1 : Nat) : Int) ≤ maxRetries ∧ isRetriableError e = true) :
    callToolAux parseJson transport cfg jitterF maxRetries attempt (fuel + 1)
      = ⟨(callToolAux parseJson transport cfg jitterF maxRetries (attempt + 1) fuel).outcome,
         (callToolAux parseJson transport cfg jitterF maxRetries (attempt + 1) fuel).attempts + 1,
         (min cfg.maxDelayMs (cfg.baseDelayMs * 2 ^ (attempt + 1 - 1)) + jitterF (attempt + 1))
           :: (callToolAux parseJson transport cfg jitterF maxRetries (attempt + 1) fuel).delays⟩ := by
  conv_lhs => unfold callToolAux
  split
  next r heq => rw [hT] at heq; cases heq
  next e' heq =>
    rw [hT] at heq
    injection heq with he
    subst he
    rw [if_pos hcond]

/-- Helper: an all-failing, all-retriable run exhausts the whole budget:
from a counter value `attempt` (with enough fuel) it makes
`maxRetries + 1 - attempt` transport attempts, sleeps the full backoff
schedule, and surfaces the classification of the last error. -/
theorem callToolAux_allfail (parseJson : String → Option Json)
    (transport : Nat → AttemptOutcome) (errs : Nat → Thrown)
    (cfg : RetryConfig) (jitterF : Nat → Nat) (maxRetries : Int)
    (hfail : ∀ n, transport n = AttemptOutcome.err (errs n))
    (hret : ∀ n, isRetriableError (errs n) = true)
    (hM : 0 ≤ maxRetries) :
    ∀ fuel attempt, maxRetries.toNat ≤ attempt + fuel → attempt ≤ maxRetries.toNat →
      callToolAux parseJson transport cfg jitterF maxRetries attempt fuel
        = ⟨Except.error (classifyCallError (errs maxRetries.toNat)),
           maxRetries.toNat + 1 - attempt,
           expectedDelays cfg jitterF (attempt + 1) (maxRetries.toNat - attempt)⟩ := by
  intro fuel
  induction fuel with
  | zero =>
    intro attempt h1 h2
    have hattempt : attempt = maxRetries.toNat := by omega
    subst hattempt
    rw [callToolAux_err_stop parseJson transport cfg jitterF maxRetries maxRetries.toNat 0
      (errs maxRetries.toNat) (hfail _) (by rintro ⟨hg, -⟩; omega)]
    have e1 : maxRetries.toNat + 1 - maxRetries.toNat = 1 := by omega
    have e2 : maxRetries.toNat - maxRetries.toNat = 0 := by omega
    rw [e1, e2]
    rfl
  | succ fuel ih =>
    intro attempt h1 h2
    by_cases hend : attempt = maxRetries.toNat
    · subst hend
      rw [callToolAux_err_stop parseJson transport cfg jitterF maxRetries maxRetries.toNat
        (fuel + 1) (errs maxRetries.toNat) (hfail _) (by rintro ⟨hg, -⟩; omega)]
      have e1 : maxRetries.toNat + 1 - maxRetries.toNat = 1 := by omega
      have e2 : maxRetries.toNat - maxRetries.toNat = 0 := by omega
      rw [e1, e2]
      rfl
    · have hlt : attempt < maxRetries.toNat := by omega
      have hguard : ((attempt + 1 : Nat) : Int) ≤ maxRetries
          ∧ isRetriableError (errs attempt) = true := by
        refine ⟨?_, hret attempt⟩
        omega
      rw [callToolAux_err_retry parseJson transport cfg jitterF maxRetries attempt fuel
        (errs attempt) (hfail _) hguard]
      rw [ih (attempt + 1) (by omega) (by omega)]
      have e2 : maxRetries.toNat - attempt = (maxRetries.toNat - (attempt + 1)) + 1 := by omega
      rw [e2]
      simp only [expectedDelays, RunResult.mk.injEq]
      exact ⟨trivial, by omega, trivial⟩

/-- C3: with a transport that fails every attempt with a retriable error, the
invoker makes exactly `maxRetries + 1` transport attempts before surfacing a
typed error — in particular exactly 3 attempts when the resolved budget is
`maxRetries = 2`; attempts stop as soon as the incremented attempt count
exceeds the budget. -/
theorem callTool_retry_bound (parseJson : String → Option Json)
    (transport : Nat → AttemptOutcome) (errs : Nat → Thrown)
    (cfg : RetryConfig) (jitterF : Nat → Nat) (maxRetries : Int)
    (hfail : ∀ n, transport n = AttemptOutcome.err (errs n))
    (hret : ∀ n, isRetriableError (errs n) = true)
    (hM : 0 ≤ maxRetries) :
    (callTool parseJson transport cfg jitterF maxRetries).attempts = maxRetries.toNat + 1
  ∧ (callTool parseJson transport cfg jitterF maxRetries).outcome
      = Except.error (classifyCallError (errs maxRetries.toNat))
  ∧ (maxRetries = 2 → (callTool parseJson transport cfg jitterF maxRetries).attempts = 3) := by
  have h := callToolAux_allfail parseJson transport errs cfg jitterF maxRetries hfail hret hM
    maxRetries.toNat 0 (by omega) (by omega)
  have hrun : callTool parseJson transport cfg jitterF maxRetries
      = ⟨Except.error (classifyCallError (errs maxRetries.toNat)),
         maxRetries.toNat + 1 - 0,
         expectedDelays cfg jitterF (0 + 1) (maxRetries.toNat - 0)⟩ := h
  refine ⟨?_, ?_, ?_⟩
  · rw [hrun]
    rfl
  · rw [hrun]
  · intro h2
    subst h2
    rw [hrun]
    rfl

/-- Witness for C3: three attempts with a budget of 2 and an all-retriable
connection-reset failure. -/
theorem callTool_retry_bound_witness :
    (callTool (fun _ => none) (fun _ => AttemptOutcome.err (Thrown.otherError "ECONNRESET"))
        defaultRetryConfig (fun _ => 0) 2).attempts = 3 := by
  have hr : isRetriableError (Thrown.otherError "ECONNRESET") = true := by decide
  have h := callTool_retry_bound (fun _ => none)
    (fun _ => AttemptOutcome.err (Thrown.otherError "ECONNRESET"))
    (fun _ => Thrown.otherError "ECONNRESET") defaultRetryConfig (fun _ => 0) 2
    (fun _ => rfl) (fun _ => hr) (by decide)
  exact h.2.2 rfl

/-- Helper: lowercasing preserves containment of a pattern that is fixed by
lowercasing (such as the digit strings 401/403). -/
theorem jsIncludes_toLower (m pat : String)
    (hpat : pat.toList.map Char.toLower = pat.toList)
    (h : jsIncludes m pat = true) : jsIncludes (jsToLower m) pat = true := by
  unfold jsIncludes at h ⊢
  rw [decide_eq_true_eq] at h ⊢
  have hmap : (pat.toList.map Char.toLower) <:+: (m.toList.map Char.toLower) :=
    List.IsInfix.map _ h
  rw [hpat] at hmap
  exact hmap

/-- Helper: an error whose message contains 401 or 403 is classified
non-retriable, as are `AuthError` and `ValidationError` instances. -/
theorem isRetriableError_authShaped (e : Thrown)
    (h : jsIncludes e.messageText "401" = true ∨ jsIncludes e.messageText "403" = true) :
    isRetriableError e = false := by
  cases e with
  | authError m => rfl
  | validationError m => rfl
  | otherError m =>
    rcases h with h | h
    · simp [isRetriableError, Thrown.messageText,
        jsIncludes_toLower m "401" (by decide) h]
    · simp [isRetriableError, Thrown.messageText,
        jsIncludes_toLower m "403" (by decide) h]
  | nonError m =>
    rcases h with h | h
    · simp [isRetriableError, Thrown.messageText,
        jsIncludes_toLower m "401" (by decide) h]
    · simp [isRetriableError, Thrown.messageText,
        jsIncludes_toLower m "403" (by decide) h]

/-- C4: an invocation failing with an authentication-shaped error
(`AuthError`, or any message containing 401/403) or a `ValidationError`
makes exactly 1 transport attempt regardless of the configured retry budget:
it is classified non-retriable, so no backoff sleep happens and the typed
error is surfaced immediately. -/
theorem callTool_nonretriable (parseJson : String → Option Json)
    (transport : Nat → AttemptOutcome) (cfg : RetryConfig) (jitterF : Nat → Nat)
    (maxRetries : Int) (e : Thrown)
    (hfail : transport 0 = AttemptOutcome.err e)
    (he : (∃ m, e = Thrown.authError m) ∨ (∃ m, e = Thrown.validationError m)
        ∨ jsIncludes e.messageText "401" = true ∨ jsIncludes e.messageText "403" = true) :
    (callTool parseJson transport cfg jitterF maxRetries).attempts = 1
  ∧ (callTool parseJson transport cfg jitterF maxRetries).outcome
      = Except.error (classifyCallError e)
  ∧ (callTool parseJson transport cfg jitterF maxRetries).delays = [] := by
  have hret : isRetriableError e = false := by
    rcases he with ⟨m, rfl⟩ | ⟨m, rfl⟩ | h | h
    · rfl
    · rfl
    · exact isRetriableError_authShaped e (Or.inl h)
    · exact isRetriableError_authShaped e (Or.inr h)
  have hrun : callTool parseJson transport cfg jitterF maxRetries
      = ⟨Except.error (classifyCallError e), 1, []⟩ :=
    callToolAux_err_stop parseJson transport cfg jitterF maxRetries 0 maxRetries.toNat e hfail
      (by rintro ⟨-, hcon⟩; rw [hret] at hcon; cases hcon)
  rw [hrun]
  exact ⟨rfl, rfl, rfl⟩

/-- Witness for C4: an `AuthError` with budget 7 still yields exactly one
attempt and no sleeps, as does a 401-shaped plain error. -/
theorem callTool_nonretriable_witness :
    ((callTool (fun _ => none) (fun _ => AttemptOutcome.err (Thrown.authError "denied"))
        defaultRetryConfig (fun _ => 0) 7).attempts = 1
      ∧ (callTool (fun _ => none) (fun _ => AttemptOutcome.err (Thrown.authError "denied"))
          defaultRetryConfig (fun _ => 0) 7).delays = [])
  ∧ (callTool (fun _ => none)
      (fun _ => AttemptOutcome.err (Thrown.otherError "HTTP 401 Unauthorized"))
      defaultRetryConfig (fun _ => 0) 7).attempts = 1 := by
  have h1 := callTool_nonretriable (fun _ => none)
    (fun _ => AttemptOutcome.err (Thrown.authError "denied"))
    defaultRetryConfig (fun _ => 0) 7 (Thrown.authError "denied") rfl
    (Or.inl ⟨"denied", rfl⟩)
  have h2 := callTool_nonretriable (fun _ => none)
    (fun _ => AttemptOutcome.err (Thrown.otherError "HTTP 401 Unauthorized"))
    defaultRetryConfig (fun _ => 0) 7 (Thrown.otherError "HTTP 401 Unauthorized") rfl
    (Or.inr (Or.inr (Or.inl (by decide))))
  exact ⟨⟨h1.1, h1.2.2⟩, h2.1⟩

/-- C5 counterexample: the spec's claimed lower bound `base * 2^(n-1)` fails
once the exponential passes the cap — with the default policy
(base 500, cap 8000) and budget 6, the 6th inter-attempt delay is 8000,
strictly below `500 * 2^5 = 16000`. -/
theorem retry_delay_interval_counterexample :
    (callTool (fun _ => none) (fun _ => AttemptOutcome.err (Thrown.otherError "timeout"))
        defaultRetryConfig (fun _ => 0) 6).delays.length = 6
  ∧ (callTool (fun _ => none) (fun _ => AttemptOutcome.err (Thrown.otherError "timeout"))
        defaultRetryConfig (fun _ => 0) 6).delays.getD 5 0 = 8000
  ∧ ¬ (defaultRetryConfig.baseDelayMs * 2 ^ 5
        ≤ (callTool (fun _ => none) (fun _ => AttemptOutcome.err (Thrown.otherError "timeout"))
            defaultRetryConfig (fun _ => 0) 6).delays.getD 5 0) := by
  decide

/-- C5 amended: the sleep before retry `n = i+1` equals
`min(maxDelayMs, baseDelayMs * 2^(n-1))` plus a jitter in `[0, jitterMaxMs)`,
and hence lies within `[min(maxDelay, base*2^(n-1)),
min(maxDelay, base*2^(n-1)) + jitterMax]`; the spec's lower bound
`base*2^(n-1)` only holds while the exponential stays at or below the cap. -/
theorem callTool_delay_spec (parseJson : String → Option Json)
    (transport : Nat → AttemptOutcome) (errs : Nat → Thrown)
    (cfg : RetryConfig) (jitterF : Nat → Nat) (maxRetries : Int)
    (hfail : ∀ n, transport n = AttemptOutcome.err (errs n))
    (hret : ∀ n, isRetriableError (errs n) = true)
    (hM : 0 ≤ maxRetries)
    (hj : ∀ n, jitterF n < cfg.jitterMaxMs) :
    (callTool parseJson transport cfg jitterF maxRetries).delays.length = maxRetries.toNat
  ∧ ∀ i, i < maxRetries.toNat →
      ((callTool parseJson transport cfg jitterF maxRetries).delays.getD i 0
          = min cfg.maxDelayMs (cfg.baseDelayMs * 2 ^ i) + jitterF (i + 1)
        ∧ min cfg.maxDelayMs (cfg.baseDelayMs * 2 ^ i)
            ≤ (callTool parseJson transport cfg jitterF maxRetries).delays.getD i 0
        ∧ (callTool parseJson transport cfg jitterF maxRetries).delays.getD i 0
            ≤ min cfg.maxDelayMs (cfg.baseDelayMs * 2 ^ i) + cfg.jitterMaxMs) := by
  have h := callToolAux_allfail parseJson transport errs cfg jitterF maxRetries hfail hret hM
    maxRetries.toNat 0 (by omega) (by omega)
  have hrun : callTool parseJson transport cfg jitterF maxRetries
      = ⟨Except.error (classifyCallError (errs maxRetries.toNat)),
         maxRetries.toNat + 1 - 0,
         expectedDelays cfg jitterF (0 + 1) (maxRetries.toNat - 0)⟩ := h
  constructor
  · rw [hrun]
    show (expectedDelays cfg jitterF (0 + 1) (maxRetries.toNat - 0)).length = maxRetries.toNat
    rw [expectedDelays_length]
    omega
  · intro i hi
    have hd : (callTool parseJson transport cfg jitterF maxRetries).delays.getD i 0
        = min cfg.maxDelayMs (cfg.baseDelayMs * 2 ^ i) + jitterF (i + 1) := by
      rw [hrun]
      show (expectedDelays cfg jitterF (0 + 1) (maxRetries.toNat - 0)).getD i 0 = _
      rw [expectedDelays_getD cfg jitterF (maxRetries.toNat - 0) (0 + 1) i (by omega)]
      have e1 : 0 + 1 + i - 1 = i := by omega
      have e2 : 0 + 1 + i = i + 1 := by omega
      rw [e1, e2]
    refine ⟨hd, ?_, ?_⟩
    · rw [hd]
      exact Nat.le_add_right _ _
    · rw [hd]
      have := hj (i + 1)
      omega

/-- Witness for C5 amended: with the default policy, budget 2 and a constant
jitter draw of 100, both sleeps equal the capped exponential plus 100 and
sit inside the amended interval. -/
theorem callTool_delay_spec_witness :
    (callTool (fun _ => none) (fun _ => AttemptOutcome.err (Thrown.otherError "timeout"))
        defaultRetryConfig (fun _ => 100) 2).delays.length = 2
  ∧ ∀ i, i < 2 →
      ((callTool (fun _ => none) (fun _ => AttemptOutcome.err (Thrown.otherError "timeout"))
            defaultRetryConfig (fun _ => 100) 2).delays.getD i 0
          = min defaultRetryConfig.maxDelayMs (defaultRetryConfig.baseDelayMs * 2 ^ i) + 100
        ∧ min defaultRetryConfig.maxDelayMs (defaultRetryConfig.baseDelayMs * 2 ^ i)
            ≤ (callTool (fun _ => none) (fun _ => AttemptOutcome.err (Thrown.otherError "timeout"))
                defaultRetryConfig (fun _ => 100) 2).delays.getD i 0
        ∧ (callTool (fun _ => none) (fun _ => AttemptOutcome.err (Thrown.otherError "timeout"))
              defaultRetryConfig (fun _ => 100) 2).delays.getD i 0
            ≤ min defaultRetryConfig.maxDelayMs (defaultRetryConfig.baseDelayMs * 2 ^ i)
                + defaultRetryConfig.jitterMaxMs) := by
  have hr : isRetriableError (Thrown.otherError "timeout") = true := by decide
  have hj : (100 : Nat) < defaultRetryConfig.jitterMaxMs := by decide
  exact callTool_delay_spec (fun _ => none)
    (fun _ => AttemptOutcome.err (Thrown.otherError "timeout"))
    (fun _ => Thrown.otherError "timeout") defaultRetryConfig (fun _ => 100) 2
    (fun _ => rfl) (fun _ => hr) (by decide) (fun _ => hj)

/-- Helper: `redactItems` is the elementwise map of `redactSecrets`. -/
theorem redactItems_eq_map (items : List Json) (apiKey : Option String) :
    redactItems items apiKey = items.map (fun item => redactSecrets item apiKey) := by
  induction items with
  | nil => rfl
  | cons item rest ih => simp [redactItems, ih]

/-- Helper: key lookup through `redactFields` finds the same key, with the
value redacted according to the key's sensitivity. -/
theorem redactFields_find (fields : List (String × Json)) (apiKey : Option String)
    (name : String) :
    (redactFields fields apiKey).find? (fun entry => entry.1 == name)
      = (fields.find? (fun entry => entry.1 == name)).map (fun entry =>
          (entry.1, if REDACT_KEYS.contains entry.1 then Json.str "[REDACTED]"
                    else redactSecrets entry.2 apiKey)) := by
  induction fields with
  | nil => rfl
  | cons head rest ih =>
    obtain ⟨key, child⟩ := head
    by_cases hk : (key == name) = true
    · simp [redactFields, List.find?_cons, hk]
    · simp only [Bool.not_eq_true] at hk
      simp [redactFields, List.find?_cons, hk, ih]

/-- Helper: a non-sensitive navigation step commutes with redaction. -/
theorem stepChild_redact (v : Json) (apiKey : Option String) (step : Step) (child : Json)
    (hfree : stepSensitiveFree step = true)
    (hstep : stepChild v step = some child) :
    stepChild (redactSecrets v apiKey) step = some (redactSecrets child apiKey) := by
  cases step with
  | field name =>
    cases v with
    | obj fields =>
      replace hstep : (fields.find? (fun entry => entry.1 == name)).map Prod.snd
          = some child := hstep
      cases hfind : fields.find? (fun entry => entry.1 == name) with
      | none => rw [hfind] at hstep; cases hstep
      | some entry =>
        rw [hfind] at hstep
        injection hstep with hsnd
        have hkey : entry.1 = name := by
          have := List.find?_some hfind
          simpa using this
        have hns : ¬ name ∈ REDACT_KEYS := by
          have : REDACT_KEYS.contains name = false := by
            simpa [stepSensitiveFree] using hfree
          simpa using this
        show ((redactFields fields apiKey).find? (fun entry => entry.1 == name)).map Prod.snd
            = some (redactSecrets child apiKey)
        rw [redactFields_find, hfind]
        simp [hkey, hns, hsnd]
    | null => exact Option.noConfusion hstep
    | bool b => exact Option.noConfusion hstep
    | num n => exact Option.noConfusion hstep
    | str s => exact Option.noConfusion hstep
    | arr items => exact Option.noConfusion hstep
  | index i =>
    cases v with
    | arr items =>
      replace hstep : items[i]? = some child := hstep
      show (redactItems items apiKey)[i]? = some (redactSecrets child apiKey)
      rw [redactItems_eq_map, List.getElem?_map, hstep]
      rfl
    | null => exact Option.noConfusion hstep
    | bool b => exact Option.noConfusion hstep
    | num n => exact Option.noConfusion hstep
    | str s => exact Option.noConfusion hstep
    | obj fields => exact Option.noConfusion hstep

/-- Helper: a sensitive field step lands on the redaction marker after
redaction whenever the key is present in the original. -/
theorem stepChild_redact_sensitive (v : Json) (apiKey : Option String) (name : String)
    (child : Json)
    (hkeyname : REDACT_KEYS.contains name = true)
    (hstep : stepChild v (Step.field name) = some child) :
    stepChild (redactSecrets v apiKey) (Step.field name) = some (Json.str "[REDACTED]") := by
  cases v with
  | obj fields =>
    replace hstep : (fields.find? (fun entry => entry.1 == name)).map Prod.snd
        = some child := hstep
    cases hfind : fields.find? (fun entry => entry.1 == name) with
    | none => rw [hfind] at hstep; cases hstep
    | some entry =>
      have hkey : entry.1 = name := by
        have := List.find?_some hfind
        simpa using this
      have hmem : name ∈ REDACT_KEYS := by simpa using hkeyname
      show ((redactFields fields apiKey).find? (fun entry => entry.1 == name)).map Prod.snd
          = some (Json.str "[REDACTED]")
      rw [redactFields_find, hfind]
      simp [hkey, hmem]
  | null => exact Option.noConfusion hstep
  | bool b => exact Option.noConfusion hstep
  | num n => exact Option.noConfusion hstep
  | str s => exact Option.noConfusion hstep
  | arr items => exact Option.noConfusion hstep

/-- Helper: along every sensitive-free path, a string scalar of the input is
mapped exactly through `redactString` in the output. -/
theorem getPath_redact (apiKey : Option String) :
    ∀ (p : List Step) (v : Json) (s : String), sensitiveFreePath p = true →
      getPath v p = some (Json.str s) →
      getPath (redactSecrets v apiKey) p = some (Json.str (redactString s apiKey)) := by
  intro p
  induction p with
  | nil =>
    intro v s _ hget
    rw [getPath] at hget
    injection hget with hv
    subst hv
    rfl
  | cons step rest ih =>
    intro v s hfree hget
    rw [getPath] at hget
    obtain ⟨child, hchild, hrest⟩ := Option.bind_eq_some.mp hget
    have hfree' : stepSensitiveFree step = true ∧ sensitiveFreePath rest = true := by
      simpa [sensitiveFreePath, List.all_cons] using hfree
    rw [getPath, stepChild_redact v apiKey step child hfree'.1 hchild]
    simpa using ih child s hfree'.2 hrest

/-- Helper: the value stored under a sensitive key (reached by a
sensitive-free prefix) is the bare marker string in the output. -/
theorem getPath_redact_sensitiveKey (apiKey : Option String) :
    ∀ (q : List Step) (v : Json) (name : String) (child : Json),
      sensitiveFreePath q = true → REDACT_KEYS.contains name = true →
      getPath v (q ++ [Step.field name]) = some child →
      getPath (redactSecrets v apiKey) (q ++ [Step.field name])
        = some (Json.str "[REDACTED]") := by
  intro q
  induction q with
  | nil =>
    intro v name child _ hkeyname hget
    rw [List.nil_append] at hget ⊢
    rw [getPath] at hget
    obtain ⟨c, hchild, -⟩ := Option.bind_eq_some.mp hget
    rw [getPath, stepChild_redact_sensitive v apiKey name c hkeyname hchild]
    rfl
  | cons step rest ih =>
    intro v name child hfree hkeyname hget
    rw [List.cons_append] at hget ⊢
    rw [getPath] at hget
    obtain ⟨c, hchild, hrest⟩ := Option.bind_eq_some.mp hget
    have hfree' : stepSensitiveFree step = true ∧ sensitiveFreePath rest = true := by
      simpa [sensitiveFreePath, List.all_cons] using hfree
    rw [getPath, stepChild_redact v apiKey step c hfree'.1 hchild]
    simpa using ih c name child hfree'.2 hkeyname hrest

/-- C7: for every nested input value and active credential, redaction returns
a value in which every string scalar reached by a sensitive-free path went
exactly through `redactString` (every occurrence of the credential replaced
by the marker, plus the Bearer rule) and every value stored under a
sensitive key is replaced wholesale by the marker. The input value itself is
untouched: `redactSecrets` is a pure function that rebuilds a fresh node at
every level (`value.map` and a fresh `output` object in the source), so the
caller's object retains its value. -/
theorem redactSecrets_paths (v : Json) (apiKey : Option String) :
    (∀ p s, sensitiveFreePath p = true → getPath v p = some (Json.str s) →
        getPath (redactSecrets v apiKey) p = some (Json.str (redactString s apiKey)))
  ∧ (∀ q name child, sensitiveFreePath q = true → REDACT_KEYS.contains name = true →
        getPath v (q ++ [Step.field name]) = some child →
        getPath (redactSecrets v apiKey) (q ++ [Step.field name])
          = some (Json.str "[REDACTED]")) :=
  ⟨fun p s hfree hget => getPath_redact apiKey p v s hfree hget,
   fun q name child hfree hkeyname hget =>
     getPath_redact_sensitiveKey apiKey q v name child hfree hkeyname hget⟩

/-- Witness for C7: the spec's test vector — the credential `secret123` is
redacted both as the `token` value (sensitive key, wholesale) and as a
substring inside the `note` string. -/
theorem redactSecrets_paths_witness :
    getPath (redactSecrets (Json.obj [("token", Json.str "secret123"),
        ("note", Json.str "uses secret123 internally")]) (some "secret123"))
        [Step.field "note"]
      = some (Json.str "uses [REDACTED] internally")
  ∧ getPath (redactSecrets (Json.obj [("token", Json.str "secret123"),
        ("note", Json.str "uses secret123 internally")]) (some "secret123"))
        [Step.field "token"]
      = some (Json.str "[REDACTED]") := by
  constructor
  · have h := (redactSecrets_paths (Json.obj [("token", Json.str "secret123"),
      ("note", Json.str "uses secret123 internally")]) (some "secret123")).1
      [Step.field "note"] "uses secret123 internally" (by decide) rfl
    rw [h]
    rfl
  · exact (redactSecrets_paths (Json.obj [("token", Json.str "secret123"),
      ("note", Json.str "uses secret123 internally")]) (some "secret123")).2
      [] "token" (Json.str "secret123") (by decide) (by decide) rfl

end Zai
